import Mathlib

/-!
Shallow embedding of the image-cell model of `termwiz/src/image.rs`
(CrazyForks/wezterm): texture coordinates validated against NaN, raster
payloads, content hashing, the decode pipeline, and the content-addressed
image store.  External crates (`ordered_float`, `serde`, `sha2`, `image`)
are modelled as injected capabilities; code from `image.rs` itself is
translated definition by definition.
-/

namespace Termwiz

/-- Model of a 32-bit float as used by this module: the claims only
distinguish NaN from non-NaN values and compare values for equality, so a
finite value is carried as a rational together with the two infinities and
a single NaN (payload bits of NaN are irrelevant to `is_nan`). -/
inductive F32 where
  | nan : F32
  | finite (val : ℚ) : F32
  | posInf : F32
  | negInf : F32
deriving DecidableEq, Repr

/-- Model of `f32::is_nan`. -/
def F32.is_nan : F32 → Bool
  | .nan => true
  | _ => false

/-- Model of `ordered_float::FloatIsNan`, the error of `NotNan::new`. -/
inductive FloatIsNan where
  | mk : FloatIsNan
deriving DecidableEq, Repr

/-- Model of `format!("{:?}", FloatIsNan)` as used by `deserialize_notnan`'s
`map_err`. -/
def FloatIsNan.debugFormat : FloatIsNan → String
  | .mk => "FloatIsNan"

/-- Model of `ordered_float::NotNan<f32>`: an f32 value known not to be NaN. -/
def NotNan : Type := { v : F32 // v.is_nan = false }

instance : DecidableEq NotNan := Subtype.instDecidableEq

/-- Model of `NotNan::new`: rejects NaN with `FloatIsNan`, accepts everything else
(infinities included). -/
def NotNan.new (val : F32) : Except FloatIsNan NotNan :=
  if h : val.is_nan = true then .error .mk
  else .ok ⟨val, Bool.eq_false_iff.mpr h⟩

/-- Model of `NotNan::into_inner`. -/
def NotNan.into_inner (v : NotNan) : F32 := v.val

/-- Outcome of a Rust expression that can panic: `ok` carries the value,
`panic` models an unwound `unwrap`/index-out-of-bounds. -/
inductive RustOutcome (α : Type) where
  | ok (val : α) : RustOutcome α
  | panic : RustOutcome α
deriving DecidableEq, Repr

/-- Model of `struct TextureCoordinate { x: NotNan<f32>, y: NotNan<f32> }`. -/
structure TextureCoordinate where
  x : NotNan
  y : NotNan
deriving DecidableEq

/-- Model of `TextureCoordinate::new`. -/
def TextureCoordinate.new (x y : NotNan) : TextureCoordinate :=
  { x := x, y := y }

/-- Model of `TextureCoordinate::new_f32`: `NotNan::new(x).unwrap()` on each
component, so a NaN component panics rather than returning the error. -/
def TextureCoordinate.new_f32 (x y : F32) : RustOutcome TextureCoordinate :=
  match NotNan.new x with
  | .error _ => .panic
  | .ok x =>
    match NotNan.new y with
    | .error _ => .panic
    | .ok y => .ok (TextureCoordinate.new x y)

/-- Model of `deserialize_notnan`: the argument is the result of the inner
`f32::deserialize` step (which may itself fail with a serde error);
a NaN value is mapped to a custom serde error via `format!("{:?}", e)`. -/
def deserialize_notnan (deserialized : Except String F32) : Except String NotNan :=
  match deserialized with
  | .error e => .error e
  | .ok value =>
    match NotNan.new value with
    | .ok v => .ok v
    | .error e => .error e.debugFormat

/-- Model of `serialize_notnan`: serializes the inner f32 value. -/
def serialize_notnan (value : NotNan) : F32 :=
  value.into_inner

/-- A byte (`u8`). -/
abbrev U8 : Type := Fin 256

/-- Model of `std::time::Duration` as stored per animation frame: seconds and
nanoseconds.  The claims treat durations as opaque data. -/
structure Duration where
  secs : Nat
  nanos : Nat
deriving DecidableEq, Repr

/-- Model of `enum ImageDataType`. -/
inductive ImageDataType where
  /-- Data is in the native image file format. -/
  | EncodedFile (data : List U8) : ImageDataType
  /-- Data is RGBA u8 data. -/
  | Rgba8 (data : List U8) (width : Nat) (height : Nat) : ImageDataType
  /-- Data is an animated sequence. -/
  | AnimRgba8 (width : Nat) (height : Nat) (durations : List Duration)
      (frames : List (List U8)) : ImageDataType
deriving DecidableEq, Repr

/-- The incremental `sha2::Sha256` hasher state: `update` appends bytes to
the stream being digested, `finalize` applies the digest function (the
SHA-256 compression itself lives in the external `sha2` crate and is the
injected `digest` parameter). -/
structure Sha256State where
  acc : List U8
deriving DecidableEq, Repr

/-- Model of `sha2::Sha256::new`. -/
def Sha256State.new : Sha256State := ⟨[]⟩

/-- Model of `Digest::update`. -/
def Sha256State.update (h : Sha256State) (data : List U8) : Sha256State :=
  ⟨h.acc ++ data⟩

/-- Model of `Digest::finalize`, given the external digest function. -/
def Sha256State.finalize (digest : List U8 → List U8) (h : Sha256State) : List U8 :=
  digest h.acc

/-- Model of `ImageDataType::compute_hash`: feeds the single buffer for
`EncodedFile`/`Rgba8`, and each frame in stored order for `AnimRgba8`,
into a fresh SHA-256 hasher and finalizes it. -/
def ImageDataType.compute_hash (digest : List U8 → List U8) :
    ImageDataType → List U8
  | .EncodedFile data => (Sha256State.new.update data).finalize digest
  | .Rgba8 data _ _ => (Sha256State.new.update data).finalize digest
  | .AnimRgba8 _ _ _ frames =>
    (frames.foldl (fun h data => h.update data) Sha256State.new).finalize digest

/-- Model of `image::ImageFormat` as consumed by `decode`: the `match` there only
distinguishes `Gif`, `Png` and everything else (its `_` arm), so the
remaining formats are collapsed into `Other`. -/
inductive ImageFormat where
  | Gif : ImageFormat
  | Png : ImageFormat
  | Other : ImageFormat
deriving DecidableEq, Repr

/-- An RGBA8 image buffer as produced by the `image` crate
(`to_rgba8().dimensions()` and `into_vec()`). -/
structure RgbaImage where
  width : Nat
  height : Nat
  pixels : List U8
deriving DecidableEq, Repr

/-- One decoded animation frame (`image::Frame`): its display delay and
its RGBA8 buffer (`frame.delay()` and `frame.into_buffer()`; wrapping the
buffer in `DynamicImage::ImageRgba8` and calling `to_rgba8()` is the
identity on an already-RGBA8 buffer). -/
structure Frame where
  delay : Duration
  buffer : RgbaImage
deriving DecidableEq, Repr

/-- Model of `image::png::PngDecoder` as consumed by `decode`: whether the stream
is an animated PNG, and the result of
`apng().into_frames().collect_frames()` (`none` models a decode error). -/
structure PngDecoder where
  is_apng : Bool
  apng_frames : Option (List Frame)
deriving DecidableEq, Repr

/-- The external `image` crate capability used by `decode`: each field
models one fallible call, with `none` standing for an error result. -/
structure Codec where
  /-- Model of `image::guess_format`; `none` models an unknown or undetectable
  format (the `Err` branch). -/
  guess_format : List U8 → Option ImageFormat
  /-- Model of `GifDecoder::new(..)` chained with `into_frames().collect_frames()`;
  `none` models failure of either step. -/
  gif_frames : List U8 → Option (List Frame)
  /-- Model of `PngDecoder::new`; `none` models failure. -/
  png_decoder : List U8 → Option PngDecoder
  /-- Model of `image::load_from_memory` followed by `to_rgba8()`. -/
  load_from_memory : List U8 → Option RgbaImage

/-- Model of `ImageDataType::decode_frames`: folds over the frames, pushing each
delay and RGBA8 buffer and overwriting width/height with each frame's
dimensions (so the last frame's dimensions win), then builds `AnimRgba8`. -/
def ImageDataType.decode_frames (img_frames : List Frame) : ImageDataType :=
  let st := img_frames.foldl
    (fun (st : Nat × Nat × List (List U8) × List Duration) frame =>
      (frame.buffer.width, frame.buffer.height,
        st.2.2.1 ++ [frame.buffer.pixels], st.2.2.2 ++ [frame.delay]))
    (0, 0, [], [])
  .AnimRgba8 st.1 st.2.1 st.2.2.2 st.2.2.1

/-- Model of `ImageDataType::decode_single`: decode the bytes as a single still
frame; on success return `Rgba8`, on failure return the original
`EncodedFile` bytes. -/
def ImageDataType.decode_single (c : Codec) (data : List U8) : ImageDataType :=
  match c.load_from_memory data with
  | some image => .Rgba8 image.pixels image.width image.height
  | none => .EncodedFile data

/-- Model of `ImageDataType::decode`: normalize an `EncodedFile` payload.  Unknown
format, or any format other than GIF/PNG, preserves the bytes; a GIF whose
frames fail to decode falls back to `decode_single`; a PNG whose decoder
construction or APNG frame collection fails preserves the bytes; non-APNG
PNGs go through `decode_single`; non-`EncodedFile` payloads are returned
unchanged. -/
def ImageDataType.decode (c : Codec) : ImageDataType → ImageDataType
  | .EncodedFile data =>
    match c.guess_format data with
    | none => .EncodedFile data
    | some .Gif =>
      match c.gif_frames data with
      | some frames => ImageDataType.decode_frames frames
      | none => ImageDataType.decode_single c data
    | some .Png =>
      match c.png_decoder data with
      | none => .EncodedFile data
      | some decoder =>
        if decoder.is_apng then
          match decoder.apng_frames with
          | some frames => ImageDataType.decode_frames frames
          | none => .EncodedFile data
        else
          ImageDataType.decode_single c data
    | some .Other => .EncodedFile data
  | data => data

/-- Model of `usize` wrap-around modulus: wezterm targets 64-bit platforms, so
`usize` arithmetic wraps at `2 ^ 64`. -/
def USIZE_MOD : Nat := 2 ^ 64

/-- Model of `IMAGE_ID.fetch_add(1, Ordering::Relaxed)` on the process-wide
`AtomicUsize`: returns the previous value and stores the incremented
value, wrapping on overflow (atomic `fetch_add` always wraps).  The
counter value is the state threaded through allocation. -/
def IMAGE_ID.fetch_add_one (counter : Nat) : Nat × Nat :=
  (counter, (counter + 1) % USIZE_MOD)

/-- The initial value of `IMAGE_ID` at process start:
`AtomicUsize::new(0)`. -/
def IMAGE_ID.init : Nat := 0

/-- Model of `struct ImageData { id: usize, hash: [u8; 32], data: ImageDataType }`. -/
structure ImageData where
  id : Nat
  hash : List U8
  data : ImageDataType
deriving DecidableEq, Repr

/-- Model of `ImageData::with_data`: allocates the next id via the atomic counter,
computes the hash once, and stores the payload.  State-passing rendering
of the global counter; `digest` is the external SHA-256 function. -/
def ImageData.with_data (digest : List U8 → List U8) (counter : Nat)
    (data : ImageDataType) : ImageData × Nat :=
  let idc := IMAGE_ID.fetch_add_one counter
  let hash := data.compute_hash digest
  ({ id := idc.1, hash := hash, data := data }, idc.2)

/-- Model of `ImageData::with_raw_data`: wraps the bytes as `EncodedFile` and
delegates to `with_data`. -/
def ImageData.with_raw_data (digest : List U8 → List U8) (counter : Nat)
    (data : List U8) : ImageData × Nat :=
  ImageData.with_data digest counter (.EncodedFile data)

/-- A sequence of `ImageData::with_data` calls, one per payload, threading
the process-wide counter.  `fetch_add` is an atomic read-modify-write, so
every concurrent execution is equivalent to such a sequential
interleaving. -/
def ImageData.createMany (digest : List U8 → List U8) (counter : Nat) :
    List ImageDataType → List ImageData × Nat
  | [] => ([], counter)
  | p :: ps =>
    let r := ImageData.with_data digest counter p
    let rest := ImageData.createMany digest r.2 ps
    (r.1 :: rest.1, rest.2)

/-- Model of `ImageData::len` (the in-memory footprint): buffer length for
`EncodedFile`/`Rgba8`; `frames.len() * frames[0].len()` for `AnimRgba8`,
where indexing `frames[0]` panics when the frame list is empty
(modelled as `RustOutcome.panic`). -/
def ImageData.len (v : ImageData) : RustOutcome Nat :=
  match v.data with
  | .EncodedFile d => .ok d.length
  | .Rgba8 data _ _ => .ok data.length
  | .AnimRgba8 _ _ _ frames =>
    match frames with
    | [] => .panic
    | f0 :: _ => .ok (frames.length * f0.length)

/-- Model of the derived `Clone` on `ImageData`: a field-wise copy, including the
`id` field. -/
def ImageData.clone (v : ImageData) : ImageData :=
  { id := v.id, hash := v.hash, data := v.data }

/-- Model of `ImageData::data` accessor. -/
def ImageData.getData (v : ImageData) : ImageDataType := v.data

/-- Model of `ImageData::id` accessor. -/
def ImageData.getId (v : ImageData) : Nat := v.id

/-! ## Claim C1 -/

/-- C1 counterexample: at the concrete NaN input, `new_f32` panics
(the `unwrap` of the failed `NotNan::new`) instead of returning a
`ValidationError` value to the caller. -/
theorem new_f32_nan_panics :
    TextureCoordinate.new_f32 .nan (.finite 0) = .panic := by
  rfl

/-- C1 (amended): constructing a `TextureCoordinate` via `new_f32` with a
NaN component panics — the `FloatIsNan` validation error is unwrapped, not
returned to the caller — and for every pair of non-NaN inputs (finite or
infinite) construction succeeds with exactly those components. -/
theorem new_f32_spec (x y : F32) (hx : x.is_nan = false) (hy : y.is_nan = false) :
    TextureCoordinate.new_f32 x y =
      .ok (TextureCoordinate.new ⟨x, hx⟩ ⟨y, hy⟩) ∧
    (∀ z : F32, TextureCoordinate.new_f32 .nan z = .panic) ∧
    TextureCoordinate.new_f32 x .nan = .panic := by
  refine ⟨?_, ?_, ?_⟩
  · simp [TextureCoordinate.new_f32, NotNan.new, hx, hy]
  · intro z
    rfl
  · unfold TextureCoordinate.new_f32
    cases NotNan.new x <;> rfl

/-- Witness for C1's theorem at concrete non-NaN inputs (one finite, one
infinite). -/
theorem new_f32_spec_witness :
    TextureCoordinate.new_f32 (.finite 1) .posInf =
      .ok (TextureCoordinate.new ⟨.finite 1, rfl⟩ ⟨.posInf, rfl⟩) :=
  (new_f32_spec (.finite 1) .posInf rfl rfl).1

/-! ## Claim C8 -/

/-- C8: deserializing a coordinate component whose value is NaN fails with
a validation error surfaced to the caller (never silently constructing a
`NotNan`), and for every non-NaN f32 value deserialization succeeds with
exactly that value. -/
theorem deserialize_notnan_spec (v : F32) :
    (v.is_nan = true → deserialize_notnan (.ok v) = .error "FloatIsNan") ∧
    (∀ h : v.is_nan = false, deserialize_notnan (.ok v) = .ok ⟨v, h⟩) := by
  constructor
  · intro hv
    simp [deserialize_notnan, NotNan.new, hv, FloatIsNan.debugFormat]
  · intro h
    simp [deserialize_notnan, NotNan.new, h]

/-- Witness for C8's theorem: a NaN component is rejected with the error,
a concrete non-NaN component round-trips. -/
theorem deserialize_notnan_spec_witness :
    deserialize_notnan (.ok .nan) = .error "FloatIsNan" ∧
    deserialize_notnan (.ok (.finite 0)) = .ok ⟨.finite 0, rfl⟩ :=
  ⟨(deserialize_notnan_spec .nan).1 rfl,
   (deserialize_notnan_spec (.finite 0)).2 rfl⟩

/-! ## Claim C4 -/

/-- Folding hasher updates over a frame list accumulates the concatenation
of the frames after the initial accumulator. -/
theorem sha256_fold_acc (frames : List (List U8)) (acc : List U8) :
    (frames.foldl (fun h data => h.update data) (⟨acc⟩ : Sha256State)).acc
      = acc ++ frames.flatten := by
  induction frames generalizing acc with
  | nil => simp
  | cons f fs ih =>
    have h1 : (⟨acc⟩ : Sha256State).update f = ⟨acc ++ f⟩ := rfl
    simp only [List.foldl_cons, h1, ih (acc ++ f), List.flatten_cons,
      List.append_assoc]

/-- C4: `compute_hash` is a deterministic function of the raw payload
bytes only — the digest of the single buffer for `EncodedFile`/`Rgba8` and
of the in-order concatenation of the frames for `AnimRgba8` — so two
`Rgba8` payloads with identical bytes but different declared dimensions
hash equal, and two `AnimRgba8` payloads with identical frames but
different durations (and dimensions) hash equal. -/
theorem compute_hash_bytes_only (digest : List U8 → List U8)
    (data : List U8) (w1 h1 w2 h2 wa ha wb hb : Nat)
    (d1 d2 : List Duration) (frames : List (List U8)) :
    ImageDataType.compute_hash digest (.EncodedFile data) = digest data ∧
    ImageDataType.compute_hash digest (.Rgba8 data w1 h1) = digest data ∧
    ImageDataType.compute_hash digest (.AnimRgba8 wa ha d1 frames)
      = digest frames.flatten ∧
    ImageDataType.compute_hash digest (.Rgba8 data w1 h1)
      = ImageDataType.compute_hash digest (.Rgba8 data w2 h2) ∧
    ImageDataType.compute_hash digest (.AnimRgba8 wa ha d1 frames)
      = ImageDataType.compute_hash digest (.AnimRgba8 wb hb d2 frames) := by
  refine ⟨rfl, rfl, ?_, rfl, rfl⟩
  simp [ImageDataType.compute_hash, Sha256State.finalize, Sha256State.new,
    sha256_fold_acc]

/-! ## Claim C3 -/

/-- C3: the footprint `ImageData::len` is the exact buffer length for
`EncodedFile` and `Rgba8` payloads, and `frame_count * len(frames[0])` for
every `AnimRgba8` payload with at least one frame. -/
theorem imageData_len_exact (idv : Nat) (hash : List U8) (d : List U8)
    (w h : Nat) (durations : List Duration) (f0 : List U8)
    (rest : List (List U8)) :
    ImageData.len ⟨idv, hash, .EncodedFile d⟩ = .ok d.length ∧
    ImageData.len ⟨idv, hash, .Rgba8 d w h⟩ = .ok d.length ∧
    ImageData.len ⟨idv, hash, .AnimRgba8 w h durations (f0 :: rest)⟩
      = .ok ((f0 :: rest).length * f0.length) :=
  ⟨rfl, rfl, rfl⟩

/-! ## Claim C9 -/

/-- C9: on an `AnimRgba8` payload with an empty frame list, `ImageData::len`
panics (`frames[0]` indexes out of bounds) instead of returning a value or
an explicit error; with at least one frame it never panics. -/
theorem imageData_len_empty_animation (idv : Nat) (hash : List U8)
    (w h : Nat) (durations : List Duration) :
    ImageData.len ⟨idv, hash, .AnimRgba8 w h durations []⟩ = .panic ∧
    (∀ (f0 : List U8) (rest : List (List U8)),
      ImageData.len ⟨idv, hash, .AnimRgba8 w h durations (f0 :: rest)⟩
        ≠ .panic) := by
  refine ⟨rfl, ?_⟩
  intro f0 rest
  simp [ImageData.len]

/-! ## Claim C10 -/

/-- C10: the derived `Clone` of `ImageData` copies every field, so the
clone is structurally equal to the original and keeps the same `id`;
consequently id uniqueness is not an invariant of the `ImageData` type
itself — distinct values sharing an id are representable. -/
theorem imageData_clone_id (v : ImageData) :
    v.clone = v ∧ v.clone.id = v.id ∧
    ∃ a b : ImageData, a.id = b.id ∧ a ≠ b := by
  refine ⟨rfl, rfl, ⟨0, [], .EncodedFile []⟩, ⟨0, [], .EncodedFile [0]⟩,
    rfl, by decide⟩

/-! ## Decode pipeline lemmas -/

/-- Decoding is the identity on an `Rgba8` payload (the catch-all arm of
the match in `decode`). -/
theorem decode_rgba8 (c : Codec) (d : List U8) (w h : Nat) :
    ImageDataType.decode c (.Rgba8 d w h) = .Rgba8 d w h := rfl

/-- Decoding is the identity on an `AnimRgba8` payload (the catch-all arm
of the match in `decode`). -/
theorem decode_anim (c : Codec) (w h : Nat) (du : List Duration)
    (f : List (List U8)) :
    ImageDataType.decode c (.AnimRgba8 w h du f) = .AnimRgba8 w h du f := rfl

/-- Decoding the result of `decode_frames` is the identity, since
`decode_frames` always builds an `AnimRgba8` payload. -/
theorem decode_decode_frames (c : Codec) (l : List Frame) :
    ImageDataType.decode c (ImageDataType.decode_frames l)
      = ImageDataType.decode_frames l := rfl

/-! ## Claim C7 -/

/-- C7: when format detection fails on the bytes of an `EncodedFile`
payload, `decode` returns the original bytes unchanged, byte for byte,
without raising an error. -/
theorem decode_unknown_format (c : Codec) (data : List U8)
    (h : c.guess_format data = none) :
    ImageDataType.decode c (.EncodedFile data) = .EncodedFile data := by
  simp [ImageDataType.decode, h]

/-- A codec on which every operation fails, as seen by arbitrary
non-image bytes. -/
def unknownCodec : Codec :=
  { guess_format := fun _ => none
    gif_frames := fun _ => none
    png_decoder := fun _ => none
    load_from_memory := fun _ => none }

/-- Witness for C7's theorem at a concrete codec and concrete bytes. -/
theorem decode_unknown_format_witness :
    ImageDataType.decode unknownCodec (.EncodedFile [7, 7])
      = .EncodedFile [7, 7] :=
  decode_unknown_format unknownCodec [7, 7] rfl

/-! ## Claim C6 -/

/-- C6: `decode` is idempotent — decoding its own output is a no-op — and
in particular it returns `Rgba8` and `AnimRgba8` payloads unchanged. -/
theorem decode_idempotent (c : Codec) (p : ImageDataType) :
    ImageDataType.decode c (ImageDataType.decode c p)
      = ImageDataType.decode c p ∧
    (∀ (data : List U8) (w h : Nat),
      ImageDataType.decode c (.Rgba8 data w h) = .Rgba8 data w h) ∧
    (∀ (w h : Nat) (durations : List Duration) (frames : List (List U8)),
      ImageDataType.decode c (.AnimRgba8 w h durations frames)
        = .AnimRgba8 w h durations frames) := by
  refine ⟨?_, fun _ _ _ => rfl, fun _ _ _ _ => rfl⟩
  cases p with
  | Rgba8 d w h => rfl
  | AnimRgba8 w h du f => rfl
  | EncodedFile data =>
    cases hgf : c.guess_format data with
    | none =>
      have hinner : ImageDataType.decode c (.EncodedFile data)
          = .EncodedFile data := by
        simp [ImageDataType.decode, hgf]
      rw [hinner]
      exact hinner
    | some fmt =>
      cases fmt with
      | Other =>
        have hinner : ImageDataType.decode c (.EncodedFile data)
            = .EncodedFile data := by
          simp [ImageDataType.decode, hgf]
        rw [hinner]
        exact hinner
      | Gif =>
        cases hg : c.gif_frames data with
        | some frames =>
          have hinner : ImageDataType.decode c (.EncodedFile data)
              = ImageDataType.decode_frames frames := by
            simp [ImageDataType.decode, hgf, hg]
          rw [hinner]
          exact decode_decode_frames c frames
        | none =>
          cases hl : c.load_from_memory data with
          | some img =>
            have hinner : ImageDataType.decode c (.EncodedFile data)
                = .Rgba8 img.pixels img.width img.height := by
              simp [ImageDataType.decode, ImageDataType.decode_single, hgf,
                hg, hl]
            rw [hinner]
            exact decode_rgba8 c img.pixels img.width img.height
          | none =>
            have hinner : ImageDataType.decode c (.EncodedFile data)
                = .EncodedFile data := by
              simp [ImageDataType.decode, ImageDataType.decode_single, hgf,
                hg, hl]
            rw [hinner]
            exact hinner
      | Png =>
        cases hp : c.png_decoder data with
        | none =>
          have hinner : ImageDataType.decode c (.EncodedFile data)
              = .EncodedFile data := by
            simp [ImageDataType.decode, hgf, hp]
          rw [hinner]
          exact hinner
        | some dec =>
          cases hap : dec.is_apng with
          | true =>
            cases haf : dec.apng_frames with
            | some frames =>
              have hinner : ImageDataType.decode c (.EncodedFile data)
                  = ImageDataType.decode_frames frames := by
                simp [ImageDataType.decode, hgf, hp, hap, haf]
              rw [hinner]
              exact decode_decode_frames c frames
            | none =>
              have hinner : ImageDataType.decode c (.EncodedFile data)
                  = .EncodedFile data := by
                simp [ImageDataType.decode, hgf, hp, hap, haf]
              rw [hinner]
              exact hinner
          | false =>
            cases hl : c.load_from_memory data with
            | some img =>
              have hinner : ImageDataType.decode c (.EncodedFile data)
                  = .Rgba8 img.pixels img.width img.height := by
                simp [ImageDataType.decode, ImageDataType.decode_single,
                  hgf, hp, hap, hl]
              rw [hinner]
              exact decode_rgba8 c img.pixels img.width img.height
            | none =>
              have hinner : ImageDataType.decode c (.EncodedFile data)
                  = .EncodedFile data := by
                simp [ImageDataType.decode, ImageDataType.decode_single,
                  hgf, hp, hap, hl]
              rw [hinner]
              exact hinner

/-! ## Claim C2 -/

/-- A codec presenting every input as an animated PNG whose frame
collection fails, while a still decode of the same bytes would succeed. -/
def apngCodec : Codec :=
  { guess_format := fun _ => some .Png
    gif_frames := fun _ => none
    png_decoder := fun _ => some ⟨true, none⟩
    load_from_memory := fun _ => some ⟨1, 1, [255, 255, 255, 255]⟩ }

/-- C2 counterexample: on an animated PNG whose frame decoding fails,
`decode` returns the original `EncodedFile` bytes directly even though
decoding the input as a single still image would succeed — it does not
retry as a still image. -/
theorem decode_apng_failure_counterexample :
    ImageDataType.decode apngCodec (.EncodedFile [0]) = .EncodedFile [0] ∧
    ImageDataType.decode_single apngCodec [0]
      = .Rgba8 [255, 255, 255, 255] 1 1 ∧
    ImageDataType.decode apngCodec (.EncodedFile [0])
      ≠ ImageDataType.decode_single apngCodec [0] := by
  refine ⟨rfl, rfl, by decide⟩

/-- C2 (amended): when the detected format is GIF and frame decoding
fails, `decode` retries the whole input as a single still image — yielding
`Rgba8` when the still decode succeeds and the original `EncodedFile`
bytes only when it also fails; but when the detected format is animated
PNG and frame collection fails, `decode` returns the original
`EncodedFile` bytes directly, without retrying as a still image. -/
theorem decode_animated_failure_fallback (c : Codec) (data : List U8) :
    (c.guess_format data = some .Gif → c.gif_frames data = none →
      ImageDataType.decode c (.EncodedFile data)
        = ImageDataType.decode_single c data) ∧
    (∀ img : RgbaImage, c.load_from_memory data = some img →
      ImageDataType.decode_single c data
        = .Rgba8 img.pixels img.width img.height) ∧
    (c.load_from_memory data = none →
      ImageDataType.decode_single c data = .EncodedFile data) ∧
    (∀ dec : PngDecoder, c.guess_format data = some .Png →
      c.png_decoder data = some dec → dec.is_apng = true →
      dec.apng_frames = none →
      ImageDataType.decode c (.EncodedFile data) = .EncodedFile data) := by
  refine ⟨?_, ?_, ?_, ?_⟩
  · intro hgf hg
    simp [ImageDataType.decode, hgf, hg]
  · intro img hl
    simp [ImageDataType.decode_single, hl]
  · intro hl
    simp [ImageDataType.decode_single, hl]
  · intro dec hgf hp hap haf
    simp [ImageDataType.decode, hgf, hp, hap, haf]

/-- A codec presenting every input as a GIF whose frame decoding fails,
while a still decode succeeds. -/
def gifFailCodec : Codec :=
  { guess_format := fun _ => some .Gif
    gif_frames := fun _ => none
    png_decoder := fun _ => none
    load_from_memory := fun _ => some ⟨1, 1, [0, 0, 0, 255]⟩ }

/-- Witness for C2's theorem at concrete codecs and bytes: the GIF
fallback to a successful still decode, and the APNG direct return of the
original bytes. -/
theorem decode_animated_failure_fallback_witness :
    ImageDataType.decode gifFailCodec (.EncodedFile [3])
      = ImageDataType.decode_single gifFailCodec [3] ∧
    ImageDataType.decode_single gifFailCodec [3]
      = .Rgba8 [0, 0, 0, 255] 1 1 ∧
    ImageDataType.decode apngCodec (.EncodedFile [0]) = .EncodedFile [0] :=
  ⟨(decode_animated_failure_fallback gifFailCodec [3]).1 rfl rfl,
   (decode_animated_failure_fallback gifFailCodec [3]).2.1
     ⟨1, 1, [0, 0, 0, 255]⟩ rfl,
   (decode_animated_failure_fallback apngCodec [0]).2.2.2
     ⟨true, none⟩ rfl rfl rfl rfl⟩

/-! ## Claim C5 -/

/-- Helper for C5: starting from a stored counter value below the wrap
modulus, the k-th of a run of `with_data` allocations receives id
`(c + k) % USIZE_MOD`. -/
theorem createMany_ids (digest : List U8 → List U8)
    (ps : List ImageDataType) (c : Nat) (hc : c < USIZE_MOD) :
    ((ImageData.createMany digest c ps).1.map ImageData.id)
      = (List.range ps.length).map (fun k => (c + k) % USIZE_MOD) := by
  induction ps generalizing c with
  | nil => rfl
  | cons p ps ih =>
    have hM : 0 < USIZE_MOD := by norm_num [USIZE_MOD]
    have hfun : (fun k => ((c + 1) % USIZE_MOD + k) % USIZE_MOD)
        = (fun k => (c + Nat.succ k) % USIZE_MOD) := by
      funext k
      rw [Nat.mod_add_mod]
      congr 1
      omega
    have ih2 := ih ((c + 1) % USIZE_MOD) (Nat.mod_lt _ hM)
    rw [hfun] at ih2
    show c :: ((ImageData.createMany digest ((c + 1) % USIZE_MOD) ps).1.map
        ImageData.id) = _
    rw [List.length_cons, List.range_succ_eq_map, List.map_cons,
      List.map_map, ih2]
    congr 1
    exact (Nat.mod_eq_of_lt hc).symm

/-- C5 (amended): starting from the counter value at process start,
creating up to `2 ^ 64` ImageData values via `with_data` yields strictly
increasing — hence pairwise-distinct — ids, each greater than every id
allocated before it; beyond `2 ^ 64` allocations the wrapping `usize`
counter reuses ids. -/
theorem imageData_ids_monotonic (digest : List U8 → List U8)
    (ps : List ImageDataType) (hn : ps.length ≤ USIZE_MOD) :
    List.Pairwise (fun a b => a < b)
      ((ImageData.createMany digest IMAGE_ID.init ps).1.map ImageData.id) ∧
    ((ImageData.createMany digest IMAGE_ID.init ps).1.map
        ImageData.id).Nodup := by
  have h0 : (0 : Nat) < USIZE_MOD := by norm_num [USIZE_MOD]
  have heq : ((ImageData.createMany digest IMAGE_ID.init ps).1.map
      ImageData.id) = List.range ps.length := by
    rw [show IMAGE_ID.init = 0 from rfl, createMany_ids digest ps 0 h0]
    have hmem : ∀ k ∈ List.range ps.length,
        (0 + k) % USIZE_MOD = (fun k => k) k := by
      intro k hk
      rw [List.mem_range] at hk
      simp [Nat.mod_eq_of_lt (lt_of_lt_of_le hk hn)]
    rw [List.map_congr_left hmem]
    simp
  rw [heq]
  exact ⟨List.pairwise_lt_range _, List.nodup_range _⟩

/-- Witness for C5's theorem: two concrete payloads get ids 0 and 1. -/
theorem imageData_ids_monotonic_witness :
    List.Pairwise (fun a b => a < b)
      ((ImageData.createMany (fun l => l) IMAGE_ID.init
          [.EncodedFile [], .EncodedFile [1]]).1.map ImageData.id) ∧
    ((ImageData.createMany (fun l => l) IMAGE_ID.init
        [.EncodedFile [], .EncodedFile [1]]).1.map ImageData.id).Nodup :=
  imageData_ids_monotonic (fun l => l) [.EncodedFile [], .EncodedFile [1]]
    (by norm_num [USIZE_MOD])

/-- C5 counterexample: over a process lifetime of `2 ^ 64 + 1`
allocations, ids are not strictly increasing — the wrapping counter hands
out id 0 twice — refuting the unconditional no-reuse claim. -/
theorem imageData_id_wraparound_counterexample :
    ¬ List.Pairwise (fun a b => a < b)
      ((ImageData.createMany (fun l => l) IMAGE_ID.init
          (List.replicate (USIZE_MOD + 1) (.EncodedFile []))).1.map
          ImageData.id) := by
  intro hpair
  have h0 : (0 : Nat) < USIZE_MOD := by norm_num [USIZE_MOD]
  rw [show IMAGE_ID.init = 0 from rfl,
    createMany_ids (fun l => l) _ 0 h0, List.length_replicate,
    List.pairwise_iff_get] at hpair
  have hlen : ((List.range (USIZE_MOD + 1)).map
      (fun k => (0 + k) % USIZE_MOD)).length = USIZE_MOD + 1 := by
    simp
  have h := hpair ⟨0, by rw [hlen]; omega⟩ ⟨USIZE_MOD, by rw [hlen]; omega⟩ h0
  rw [List.get_eq_getElem, List.get_eq_getElem] at h
  simp only [List.getElem_map, List.getElem_range, Nat.zero_add,
    Nat.zero_mod, Nat.mod_self] at h
  exact absurd h (lt_irrefl 0)

end Termwiz
